import Mathlib

/-!
Shallow embedding of `labml/analytics/__init__.py` (the analytics facade of the
labml repository): indicator collections, payload extraction, and the shaping
functions `get_data`, `distribution`, `scatter`, `indicator_data`,
`artifact_data`.  The internal cache and collection classes
(`labml.internal.analytics.cache`, `labml.internal.analytics.indicators`) are
not part of the visible sources; where a claim depends on them they are
modelled from the specification, and each such definition says so in its
doc comment.
-/

namespace Labml

/-- One logged metric/artifact stream within one run.  Per the spec, two
indicators are the same entity iff they share run identifier and key. -/
structure Indicator where
  runId : String
  key : String
deriving DecidableEq, Repr

/-- Numeric values of payload cells.  The Python payloads hold floats, but the
facade only moves values around without arithmetic, so rationals model them
faithfully. -/
abbrev Val := ℚ

/-- One timestep row of a histogram-format series payload: 10 columns
(column 0 the global step, columns 1-9 the nine basis points). -/
abbrev SeriesRow := Fin 10 → Val

/-- A series payload of shape `[T, 10]`: a list of `T` rows. -/
abbrev SeriesPayload := List SeriesRow

/-- The nine fixed basis points (percentiles) that columns 1-9 of a series
payload summarize: 0, 6.68, 15.87, 30.85, 50.00, 69.15, 84.13, 93.32, 100.00.
Column `j` (for `1 ≤ j ≤ 9`) holds the value at `basisPoints[j-1]`. -/
def basisPoints : List ℚ :=
  [0, 668/100, 1587/100, 3085/100, 50, 6915/100, 8413/100, 9332/100, 100]

/-- The memoizing cache viewed as a function from indicator to optional
payload, standing for `_cache.get_indicator_data` / `_cache.get_artifact_data`
(`None` becomes `Option.none`). -/
abbrev Cache (α : Type) := Indicator → Option α

/-- `_get_series`: walk the collection in order, fetch each indicator's series
payload from the cache, keep payload and key when the payload is present, skip
the indicator when the cache returns `None`. -/
def _get_series (cache : Cache SeriesPayload) :
    List Indicator → List SeriesPayload × List String
  | [] => ([], [])
  | ind :: rest =>
    let r := _get_series cache rest
    match cache ind with
    | some d => (d :: r.1, ind.key :: r.2)
    | none => r

/-- `_get_artifacts`: identical loop to `_get_series` but reading the artifact
cache; artifact payloads are opaque, hence the type parameter. -/
def _get_artifacts {α : Type} (cache : Cache α) :
    List Indicator → List α × List String
  | [] => ([], [])
  | ind :: rest =>
    let r := _get_artifacts cache rest
    match cache ind with
    | some d => (d :: r.1, ind.key :: r.2)
    | none => r

/-- `d[:, [0, 5]]`: keep columns 0 and 5 of every row, giving a `[T, 2]`
array. -/
def shapeData (d : SeriesPayload) : List (Val × Val) :=
  d.map fun r => (r 0, r 5)

/-- A Python dict from display key to shaped array, as an ordered association
list. -/
abbrev DataDict := List (String × List (Val × Val))

/-- Python dict assignment `data[k] = v`: replace the value in place when the
key is present (keeping its position), append the pair otherwise. -/
def dictInsert {β : Type} (data : List (String × β)) (k : String) (v : β) :
    List (String × β) :=
  if data.any fun p => p.1 = k then
    data.map fun p => if p.1 = k then (k, v) else p
  else data ++ [(k, v)]

/-- Dict lookup by key (first entry wins; after `dictInsert` keys stay
unique). -/
def dictLookup {β : Type} (k : String) : List (String × β) → Option β
  | [] => none
  | p :: rest => if p.1 = k then some p.2 else dictLookup k rest

/-- The loop body of `get_data`: `data[ind.key] = d[:, [0, 5]]` for each
indicator.  `get_indicator_data` returning `None` makes the subscript
`d[:, [0, 5]]` fail (a `TypeError` in Python), modelled as `none`. -/
def getDataLoop (cache : Cache SeriesPayload) (data : DataDict) :
    List Indicator → Option DataDict
  | [] => some data
  | ind :: rest =>
    match cache ind with
    | some d => getDataLoop cache (dictInsert data ind.key (shapeData d)) rest
    | none => none

/-- `get_data`: fold the dict-assignment loop over the collection starting
from the empty dict. -/
def get_data (cache : Cache SeriesPayload) (indicators : List Indicator) :
    Option DataDict :=
  getDataLoop cache [] indicators

/-- The argument package handed to the external density renderer
`_density.render_density_minimap_multiple`. -/
structure DensityChart where
  series : List SeriesPayload
  names : List String
  levels : ℤ
  alpha : ℚ
  width : ℤ
  height : ℤ
  height_minimap : ℤ

/-- `distribution`: extract series; raise `ValueError("No series found")` when
extraction is empty; otherwise delegate to the density renderer with series,
names and the display parameters unchanged. -/
def distribution (cache : Cache SeriesPayload) (indicators : List Indicator)
    (levels : ℤ) (alpha : ℚ) (height width height_minimap : ℤ) :
    Except String DensityChart :=
  let sn := _get_series cache indicators
  if sn.1.isEmpty then Except.error "No series found"
  else Except.ok ⟨sn.1, sn.2, levels, alpha, width, height, height_minimap⟩

/-- The argument package handed to the external scatter renderer
`_scatter.scatter`. -/
structure ScatterChart where
  series : List SeriesPayload
  x_series : SeriesPayload
  names : List String
  x_name : String
  width : ℤ
  height : ℤ
  height_minimap : ℤ
  noise : Option (ℚ × ℚ)

/-- `scatter`: extract series for the y-collection and the x-collection; raise
when the x-extraction does not have exactly one series, then raise when the
y-extraction is empty; otherwise delegate to the scatter renderer with
`x_series[0]` paired against all y-series. -/
def scatter (cache : Cache SeriesPayload) (indicators x : List Indicator)
    (noise : Option (ℚ × ℚ)) (height width height_minimap : ℤ) :
    Except String ScatterChart :=
  let sn := _get_series cache indicators
  let xsn := _get_series cache x
  if xsn.1.length ≠ 1 then
    Except.error "There should be exactly one series for x-axis"
  else if sn.1.isEmpty then Except.error "No series found"
  else Except.ok
    ⟨sn.1, xsn.1.headD [], sn.2, xsn.2.headD "", width, height,
      height_minimap, noise⟩

/-- `indicator_data`: extract series, raise `ValueError("No series found")`
when empty, otherwise return the raw `(series, names)` pair. -/
def indicator_data (cache : Cache SeriesPayload) (indicators : List Indicator) :
    Except String (List SeriesPayload × List String) :=
  let sn := _get_series cache indicators
  if sn.1.isEmpty then Except.error "No series found" else Except.ok sn

/-- `artifact_data`: extract artifacts, raise `ValueError("No series found")`
when empty, otherwise return the raw `(series, names)` pair. -/
def artifact_data {α : Type} (cache : Cache α) (indicators : List Indicator) :
    Except String (List α × List String) :=
  let sn := _get_artifacts cache indicators
  if sn.1.isEmpty then Except.error "No series found" else Except.ok sn

/-- Modelled from the spec: `labml.internal.analytics.indicators.IndicatorCollection`
is not under the visible sources.  Per the spec it is an ordered,
de-duplicated set of indicators (no two elements share run id and key;
iteration order is insertion order). -/
structure IndicatorCollection where
  indicators : List Indicator
  nodup : indicators.Nodup

/-- Modelled from the spec: collection `__add__` returns a new collection
containing the left operand's elements followed by those of the right
operand's elements not already present. -/
def IndicatorCollection.add (a b : IndicatorCollection) : IndicatorCollection :=
  ⟨a.indicators ++ b.indicators.filter (fun i => i ∉ a.indicators), by
    refine List.Nodup.append a.nodup (b.nodup.filter _) ?_
    intro x hxa hxb
    rcases List.mem_filter.mp hxb with ⟨-, hdec⟩
    exact (of_decide_eq_true hdec) hxa⟩

/-- Modelled from the spec: addition handles the degenerate case where the
left operand is the sentinel `None` starting accumulator (Python resolves
`None + c` through the collection's reflected addition), yielding the right
operand's elements. -/
def addNoneLeft (a : Option IndicatorCollection) (b : IndicatorCollection) :
    IndicatorCollection :=
  match a with
  | none => b
  | some a => a.add b

/-- `runs`: start from `indicators = None` and fold
`indicators = indicators + get_run(r).indicators` over the argument uuids in
order.  `env` stands for `_cache.get_run(r).indicators`. -/
def runs (env : String → IndicatorCollection) (uuids : List String) :
    Option IndicatorCollection :=
  uuids.foldl (fun acc r => some (addNoneLeft acc (env r))) none

/-- Modelled from the spec: a `Run` object, an opaque identifier owning an
indicator collection. -/
structure Run where
  uuid : String
  indicators : IndicatorCollection

/-- Modelled from the spec: the process-wide run cache state — the map from
identifier to cached `Run`, plus an instrumentation counter of backing-store
fetches per identifier. -/
structure RunCacheState where
  cached : List (String × Run)
  fetchCount : String → Nat

/-- The empty cache a process starts with. -/
def RunCacheState.init : RunCacheState := ⟨[], fun _ => 0⟩

/-- Modelled from the spec: `_cache.get_run(uuid)` returns the cached `Run`
for the identifier, constructing (fetching from the backing `store`) and
caching it on first call only. -/
def get_run (store : String → Run) (s : RunCacheState) (uuid : String) :
    Run × RunCacheState :=
  match dictLookup uuid s.cached with
  | some r => (r, s)
  | none =>
    let r := store uuid
    (r, ⟨(uuid, r) :: s.cached,
      fun u => if u = uuid then s.fetchCount u + 1 else s.fetchCount u⟩)

/-- A sequence of `get_run` calls threaded through the cache state, modelling
a process lifetime of lookups. -/
def runCalls (store : String → Run) (s : RunCacheState) :
    List String → RunCacheState
  | [] => s
  | u :: us => runCalls store (get_run store s u).2 us

/-- The last indicator of the list (in collection order) whose key is `k`,
used to state which indicator wins a `get_data` dict overwrite. -/
def lastWithKey (k : String) : List Indicator → Option Indicator
  | [] => none
  | i :: rest =>
    match lastWithKey k rest with
    | some j => some j
    | none => if i.key = k then some i else none

/-- Cache invariant tying the fetch counter to cache occupancy: an identifier
has been fetched at most once, and only if it is now cached. -/
def cacheInv (s : RunCacheState) : Prop :=
  ∀ u, s.fetchCount u ≤ if (dictLookup u s.cached).isSome then 1 else 0

/-- A concrete sample payload row: column `j` holds the value `j`. -/
def sampleRow : SeriesRow := fun j => (j.val : ℚ)

/-- A concrete payload assignment giving every indicator the one-row payload
`[sampleRow]`. -/
def samplePayload : Indicator → SeriesPayload := fun _ => [sampleRow]

/-- The cache in which every indicator has payload `samplePayload`. -/
def sampleCache : Cache SeriesPayload := fun i => some (samplePayload i)

/-- A payload assignment distinguishing runs: one constant row of 1 for
`run-A`, of 2 otherwise. -/
def samplePayloadTwo : Indicator → SeriesPayload :=
  fun i => if i.runId = "run-A" then [fun _ => 1] else [fun _ => 2]

/-- The cache in which every indicator has payload `samplePayloadTwo`. -/
def sampleCacheTwo : Cache SeriesPayload := fun i => some (samplePayloadTwo i)

/-! ### Facts about series and artifact extraction -/

theorem get_series_eq_filterMap (cache : Cache SeriesPayload)
    (inds : List Indicator) :
    _get_series cache inds =
      ((inds.filterMap fun i => (cache i).map fun d => (d, i.key)).map Prod.fst,
       (inds.filterMap fun i => (cache i).map fun d => (d, i.key)).map
         Prod.snd) := by
  induction inds with
  | nil => rfl
  | cons ind rest ih =>
    cases h : cache ind <;> simp [_get_series, List.filterMap_cons, h, ih]

theorem get_artifacts_eq_filterMap {α : Type} (cache : Cache α)
    (inds : List Indicator) :
    _get_artifacts cache inds =
      ((inds.filterMap fun i => (cache i).map fun d => (d, i.key)).map Prod.fst,
       (inds.filterMap fun i => (cache i).map fun d => (d, i.key)).map
         Prod.snd) := by
  induction inds with
  | nil => rfl
  | cons ind rest ih =>
    cases h : cache ind <;> simp [_get_artifacts, List.filterMap_cons, h, ih]

theorem get_series_skips_none (cache : Cache SeriesPayload)
    (inds : List Indicator) :
    _get_series cache (inds.filter fun i => (cache i).isSome) =
      _get_series cache inds := by
  induction inds with
  | nil => rfl
  | cons ind rest ih =>
    cases h : cache ind <;> simp [_get_series, List.filter_cons, h, ih]

theorem get_artifacts_skips_none {α : Type} (cache : Cache α)
    (inds : List Indicator) :
    _get_artifacts cache (inds.filter fun i => (cache i).isSome) =
      _get_artifacts cache inds := by
  induction inds with
  | nil => rfl
  | cons ind rest ih =>
    cases h : cache ind <;> simp [_get_artifacts, List.filter_cons, h, ih]

theorem getDataLoop_absent (cache : Cache SeriesPayload) :
    ∀ (inds : List Indicator) (acc : DataDict) (ind : Indicator),
      ind ∈ inds → cache ind = none → getDataLoop cache acc inds = none := by
  intro inds
  induction inds with
  | nil => intro acc ind h; exact absurd h (List.not_mem_nil ind)
  | cons i rest ih =>
    intro acc ind hmem hnone
    cases hi : cache i with
    | none => simp [getDataLoop, hi]
    | some d =>
      rcases List.mem_cons.mp hmem with rfl | hrest
      · rw [hi] at hnone; exact Option.noConfusion hnone
      · simp only [getDataLoop, hi]
        exact ih _ ind hrest hnone

/-! ### Claim theorems: extraction (C4), missing payloads (C1) -/

/-- Claim C4: series extraction visits the collection in order, fetches each
payload from the cache, silently skips `None` payloads, and returns two
parallel index-aligned lists (both projections of the one ordered list of
(payload, key) pairs, so `names[i]` is the key of the indicator producing
`series[i]`); artifact extraction behaves identically. -/
theorem extraction_order_and_alignment {α : Type} (cache : Cache SeriesPayload)
    (acache : Cache α) (inds : List Indicator) :
    _get_series cache inds =
      ((inds.filterMap fun i => (cache i).map fun d => (d, i.key)).map Prod.fst,
       (inds.filterMap fun i => (cache i).map fun d => (d, i.key)).map
         Prod.snd) ∧
    (_get_series cache inds).1.length = (_get_series cache inds).2.length ∧
    _get_artifacts acache inds =
      ((inds.filterMap fun i => (acache i).map fun d => (d, i.key)).map
         Prod.fst,
       (inds.filterMap fun i => (acache i).map fun d => (d, i.key)).map
         Prod.snd) := by
  refine ⟨get_series_eq_filterMap cache inds, ?_,
    get_artifacts_eq_filterMap acache inds⟩
  rw [get_series_eq_filterMap cache inds]
  simp

/-- Claim C1, counterexample: `get_data` does not filter an absent payload —
on a one-indicator collection whose payload is absent, `get_data` fails
(returns `none`, the model of the Python `TypeError` on `None[:, [0, 5]]`)
instead of returning the empty mapping that filtering would produce. -/
theorem get_data_does_not_filter_absent_payload :
    get_data (fun _ => none) [⟨"run-A", "accuracy"⟩] = none ∧
    get_data (fun _ => none) [⟨"run-A", "accuracy"⟩] ≠ some [] :=
  ⟨rfl, by simp [get_data, getDataLoop]⟩

/-- Claim C1, amended: an indicator whose payload is absent is filtered out by
series extraction and artifact extraction (so by the operations built on
them), but not by `get_data`, which fails as soon as any indicator's payload
is absent. -/
theorem absent_payload_filtered_by_extraction_not_get_data {α : Type}
    (cache : Cache SeriesPayload) (acache : Cache α) (inds : List Indicator) :
    _get_series cache (inds.filter fun i => (cache i).isSome) =
      _get_series cache inds ∧
    _get_artifacts acache (inds.filter fun i => (acache i).isSome) =
      _get_artifacts acache inds ∧
    ∀ ind ∈ inds, cache ind = none → get_data cache inds = none :=
  ⟨get_series_skips_none cache inds, get_artifacts_skips_none acache inds,
    fun ind hmem hnone => getDataLoop_absent cache inds [] ind hmem hnone⟩

/-- Witness for the amended C1 at a concrete input. -/
theorem absent_payload_filtered_witness :
    get_data (fun _ => none) [⟨"run-B", "loss"⟩] = none :=
  (absent_payload_filtered_by_extraction_not_get_data (fun _ => none)
      (fun _ => (none : Option Unit)) [⟨"run-B", "loss"⟩]).2.2
    ⟨"run-B", "loss"⟩ (List.mem_singleton.mpr rfl) rfl

/-! ### Claim theorems: validating accessors (C3, C7) -/

/-- Claim C3: `distribution` raises `ValueError("No series found")` iff series
extraction over the collection yields zero series; otherwise it hands the
extracted series and names plus the display parameters through to the density
renderer unchanged. -/
theorem distribution_error_iff_empty (cache : Cache SeriesPayload)
    (inds : List Indicator) (lv : ℤ) (al : ℚ) (hh ww hm : ℤ) :
    (distribution cache inds lv al hh ww hm = Except.error "No series found" ↔
      (_get_series cache inds).1 = []) ∧
    ((_get_series cache inds).1 ≠ [] →
      distribution cache inds lv al hh ww hm =
        Except.ok ⟨(_get_series cache inds).1, (_get_series cache inds).2,
          lv, al, ww, hh, hm⟩) := by
  by_cases hs : (_get_series cache inds).1 = [] <;>
    simp [distribution, hs]

/-- Witness for C3 at a concrete input with one extracted series. -/
theorem distribution_error_iff_empty_witness :
    distribution (fun _ => some []) [⟨"run-A", "loss"⟩] 5 (6/10) 400 800 100 =
      Except.ok
        ⟨(_get_series (fun _ => some []) [⟨"run-A", "loss"⟩]).1,
          (_get_series (fun _ => some []) [⟨"run-A", "loss"⟩]).2,
          5, 6/10, 800, 400, 100⟩ :=
  (distribution_error_iff_empty (fun _ => some []) [⟨"run-A", "loss"⟩]
      5 (6/10) 400 800 100).2 (by simp [_get_series])

/-- Claim C7: `indicator_data` and `artifact_data` raise the same
`ValueError("No series found")` exactly when their extraction yields nothing,
and otherwise return the raw extracted (series, names) pair untransformed. -/
theorem data_accessors_validate_and_return_raw {α : Type}
    (cache : Cache SeriesPayload) (acache : Cache α)
    (inds ainds : List Indicator) :
    (indicator_data cache inds = Except.error "No series found" ↔
      (_get_series cache inds).1 = []) ∧
    ((_get_series cache inds).1 ≠ [] →
      indicator_data cache inds = Except.ok (_get_series cache inds)) ∧
    (artifact_data acache ainds = Except.error "No series found" ↔
      (_get_artifacts acache ainds).1 = []) ∧
    ((_get_artifacts acache ainds).1 ≠ [] →
      artifact_data acache ainds = Except.ok (_get_artifacts acache ainds)) := by
  constructor
  · by_cases hs : (_get_series cache inds).1 = [] <;>
      simp [indicator_data, hs]
  constructor
  · by_cases hs : (_get_series cache inds).1 = [] <;>
      simp [indicator_data, hs]
  constructor
  · by_cases hs : (_get_artifacts acache ainds).1 = [] <;>
      simp [artifact_data, hs]
  · by_cases hs : (_get_artifacts acache ainds).1 = [] <;>
      simp [artifact_data, hs]

/-- Witness for C7 at concrete inputs. -/
theorem data_accessors_witness :
    indicator_data (fun _ => some []) [⟨"run-A", "loss"⟩] =
      Except.ok (_get_series (fun _ => some []) [⟨"run-A", "loss"⟩]) ∧
    artifact_data (fun _ => some "blob") [⟨"run-A", "img"⟩] =
      Except.ok (_get_artifacts (fun _ => some "blob") [⟨"run-A", "img"⟩]) :=
  ⟨(data_accessors_validate_and_return_raw (fun _ => some [])
        (fun _ => some "blob") [⟨"run-A", "loss"⟩] [⟨"run-A", "img"⟩]).2.1
      (by simp [_get_series]),
    (data_accessors_validate_and_return_raw (fun _ => some [])
        (fun _ => some "blob") [⟨"run-A", "loss"⟩] [⟨"run-A", "img"⟩]).2.2.2
      (by simp [_get_artifacts])⟩

/-! ### Claim theorem: scatter cardinality (C2) -/

/-- Claim C2: `scatter` errors whenever the x-collection's extraction does not
resolve to exactly one series (never silently picking the first); when it
resolves to exactly one series and the y-extraction is nonempty, the renderer
receives that single x-series paired against every extracted y-series; and a
renderer invocation (an `ok` result) happens only when no error condition
held. -/
theorem scatter_x_cardinality (cache : Cache SeriesPayload)
    (inds x : List Indicator) (noise : Option (ℚ × ℚ)) (hh ww hm : ℤ) :
    ((_get_series cache x).1.length ≠ 1 →
      scatter cache inds x noise hh ww hm =
        Except.error "There should be exactly one series for x-axis") ∧
    (∀ xs, (_get_series cache x).1 = [xs] →
      (_get_series cache inds).1 ≠ [] →
      scatter cache inds x noise hh ww hm =
        Except.ok ⟨(_get_series cache inds).1, xs, (_get_series cache inds).2,
          (_get_series cache x).2.headD "", ww, hh, hm, noise⟩) ∧
    (∀ ch, scatter cache inds x noise hh ww hm = Except.ok ch →
      (_get_series cache x).1.length = 1 ∧
      (_get_series cache inds).1 ≠ [] ∧
      ch.series = (_get_series cache inds).1 ∧
      ch.x_series = (_get_series cache x).1.headD [] ∧
      ch.names = (_get_series cache inds).2 ∧
      ch.x_name = (_get_series cache x).2.headD "") := by
  refine ⟨fun hx => by simp [scatter, hx], ?_, ?_⟩
  · intro xs hxs hne
    simp [scatter, hxs, hne]
  · intro ch hch
    by_cases hx : (_get_series cache x).1.length = 1
    · by_cases hne : (_get_series cache inds).1 = []
      · simp [scatter, hx, hne] at hch
      · have hval : scatter cache inds x noise hh ww hm =
            Except.ok ⟨(_get_series cache inds).1,
              (_get_series cache x).1.headD [],
              (_get_series cache inds).2, (_get_series cache x).2.headD "",
              ww, hh, hm, noise⟩ := by
          simp [scatter, hx, hne]
        rw [hval] at hch
        obtain rfl := Except.ok.inj hch
        exact ⟨hx, hne, rfl, rfl, rfl, rfl⟩
    · simp [scatter, hx] at hch

/-- Witness for C2 at a concrete input whose x-collection extracts exactly one
series. -/
theorem scatter_x_cardinality_witness :
    scatter (fun _ => some []) [⟨"run-A", "train_loss"⟩] [⟨"run-A", "step"⟩]
        none 400 800 100 =
      Except.ok
        ⟨(_get_series (fun _ => some []) [⟨"run-A", "train_loss"⟩]).1, [],
          (_get_series (fun _ => some []) [⟨"run-A", "train_loss"⟩]).2,
          (_get_series (fun _ => some []) [⟨"run-A", "step"⟩]).2.headD "",
          800, 400, 100, none⟩ :=
  (scatter_x_cardinality (fun _ => some []) [⟨"run-A", "train_loss"⟩]
      [⟨"run-A", "step"⟩] none 400 800 100).2.1 []
    (by simp [_get_series]) (by simp [_get_series])

/-! ### Dict lemmas for `get_data` -/

theorem dictLookup_map_replace_ne {β : Type} (k q : String) (v : β)
    (hne : q ≠ k) (d : List (String × β)) :
    dictLookup q (d.map fun p => if p.1 = k then (k, v) else p) =
      dictLookup q d := by
  induction d with
  | nil => rfl
  | cons p rest ih =>
    by_cases hp : p.1 = k
    · simp [dictLookup, hp, Ne.symm hne, ih]
    · simp [dictLookup, hp, ih]

theorem dictLookup_map_replace_eq {β : Type} (k : String) (v : β) :
    ∀ d : List (String × β), d.any (fun p => p.1 = k) →
      dictLookup k (d.map fun p => if p.1 = k then (k, v) else p) = some v := by
  intro d
  induction d with
  | nil => intro hany; simp at hany
  | cons p rest ih =>
    intro hany
    by_cases hp : p.1 = k
    · simp [dictLookup, hp]
    · have hrest : rest.any (fun p => p.1 = k) := by
        simp only [List.any_cons, Bool.or_eq_true] at hany
        rcases hany with h | h
        · exact absurd (of_decide_eq_true h) hp
        · exact h
      simp [dictLookup, hp, ih hrest]

theorem dictLookup_append_ne {β : Type} (k q : String) (v : β) (hne : q ≠ k) :
    ∀ d : List (String × β), dictLookup q (d ++ [(k, v)]) = dictLookup q d := by
  intro d
  induction d with
  | nil => simp [dictLookup, Ne.symm hne]
  | cons p rest ih => by_cases hp : p.1 = q <;> simp [dictLookup, hp, ih]

theorem dictLookup_append_eq {β : Type} (k : String) (v : β) :
    ∀ d : List (String × β), ¬ d.any (fun p => p.1 = k) →
      dictLookup k (d ++ [(k, v)]) = some v := by
  intro d
  induction d with
  | nil => intro h; simp [dictLookup]
  | cons p rest ih =>
    intro h
    simp only [List.any_cons, Bool.or_eq_true, not_or] at h
    have hp : ¬ p.1 = k := fun hh => h.1 (decide_eq_true hh)
    simp [dictLookup, hp, ih h.2]

theorem dictLookup_dictInsert {β : Type} (d : List (String × β))
    (k q : String) (v : β) :
    dictLookup q (dictInsert d k v) =
      if q = k then some v else dictLookup q d := by
  by_cases hany : d.any (fun p => p.1 = k)
  · by_cases hq : q = k
    · subst hq
      simp [dictInsert, hany, dictLookup_map_replace_eq q v d hany]
    · simp [dictInsert, hany, dictLookup_map_replace_ne k q v hq d, hq]
  · by_cases hq : q = k
    · subst hq
      simp [dictInsert, hany, dictLookup_append_eq q v d hany]
    · simp [dictInsert, hany, dictLookup_append_ne k q v hq d, hq]

theorem dictInsert_eq_replace {β : Type} (d : List (String × β)) (k : String)
    (v : β) (hany : d.any (fun p => p.1 = k)) :
    dictInsert d k v = d.map fun p => if p.1 = k then (k, v) else p := by
  simp [dictInsert, hany]

theorem dictInsert_eq_append {β : Type} (d : List (String × β)) (k : String)
    (v : β) (hany : ¬ d.any (fun p => p.1 = k)) :
    dictInsert d k v = d ++ [(k, v)] := by
  simp [dictInsert, hany]

theorem dictInsert_keys_nodup {β : Type} (k : String) (v : β)
    (d : List (String × β)) (hd : (d.map Prod.fst).Nodup) :
    ((dictInsert d k v).map Prod.fst).Nodup := by
  by_cases hany : d.any (fun p => p.1 = k)
  · have hfst : (Prod.fst ∘ fun p : String × β => if p.1 = k then (k, v) else p)
        = Prod.fst := by
      funext p
      by_cases h : p.1 = k <;> simp [h]
    rw [dictInsert_eq_replace d k v hany, List.map_map, hfst]
    exact hd
  · have hk : k ∉ d.map Prod.fst := by
      intro hmem
      rcases List.mem_map.mp hmem with ⟨p, hp, hpk⟩
      exact hany (List.any_eq_true.mpr ⟨p, hp, by simp [hpk]⟩)
    rw [dictInsert_eq_append d k v hany, List.map_append, List.map_cons,
      List.map_nil, List.nodup_append]
    exact ⟨hd, List.nodup_singleton k, by
      intro a ha hb
      rw [List.mem_singleton.mp hb] at ha
      exact hk ha⟩

theorem mem_dictInsert {β : Type} (d : List (String × β)) (k : String) (v : β)
    (p : String × β) (hp : p ∈ dictInsert d k v) : p ∈ d ∨ p = (k, v) := by
  by_cases hany : d.any (fun q => q.1 = k)
  · rw [dictInsert_eq_replace d k v hany] at hp
    rcases List.mem_map.mp hp with ⟨q, hq, hfq⟩
    by_cases h : q.1 = k
    · right; rw [← hfq]; simp [h]
    · left; rw [← hfq]; simpa [h] using hq
  · rw [dictInsert_eq_append d k v hany] at hp
    rcases List.mem_append.mp hp with h | h
    · exact Or.inl h
    · exact Or.inr (List.mem_singleton.mp h)

theorem lastWithKey_of_mem (inds : List Indicator) (i : Indicator)
    (hi : i ∈ inds) : ∃ j, lastWithKey i.key inds = some j := by
  induction inds with
  | nil => cases hi
  | cons a rest ih =>
    rcases List.mem_cons.mp hi with rfl | h
    · cases hl : lastWithKey i.key rest with
      | some j => exact ⟨j, by simp [lastWithKey, hl]⟩
      | none => exact ⟨i, by simp [lastWithKey, hl]⟩
    · obtain ⟨j, hj⟩ := ih h
      exact ⟨j, by simp [lastWithKey, hj]⟩

theorem getDataLoop_spec (cache : Cache SeriesPayload)
    (f : Indicator → SeriesPayload) :
    ∀ (inds : List Indicator) (acc : DataDict),
      (∀ i ∈ inds, cache i = some (f i)) →
      ∃ m, getDataLoop cache acc inds = some m ∧
        (∀ q, dictLookup q m =
          match lastWithKey q inds with
          | some j => some (shapeData (f j))
          | none => dictLookup q acc) ∧
        (∀ p ∈ m, p ∈ acc ∨ ∃ i ∈ inds, p = (i.key, shapeData (f i))) ∧
        ((acc.map Prod.fst).Nodup → (m.map Prod.fst).Nodup) := by
  intro inds
  induction inds with
  | nil =>
    intro acc h
    exact ⟨acc, rfl, fun q => rfl, fun p hp => Or.inl hp, fun hh => hh⟩
  | cons i rest ih =>
    intro acc h
    have hi : cache i = some (f i) := h i (List.mem_cons_self i rest)
    have hrest : ∀ j ∈ rest, cache j = some (f j) :=
      fun j hj => h j (List.mem_cons_of_mem i hj)
    obtain ⟨m, hm, hlook, hmem, hnd⟩ :=
      ih (dictInsert acc i.key (shapeData (f i))) hrest
    refine ⟨m, by simp [getDataLoop, hi, hm], ?_, ?_, ?_⟩
    · intro q
      rw [hlook q]
      cases hl : lastWithKey q rest with
      | some j => simp [lastWithKey, hl]
      | none =>
        by_cases hq : i.key = q
        · simp [lastWithKey, hl, hq, dictLookup_dictInsert]
        · have hq' : ¬ q = i.key := fun hh => hq hh.symm
          simp [lastWithKey, hl, hq, hq', dictLookup_dictInsert]
    · intro p hp
      rcases hmem p hp with hacc | ⟨j, hj, hpj⟩
      · rcases mem_dictInsert acc i.key (shapeData (f i)) p hacc with h1 | h1
        · exact Or.inl h1
        · exact Or.inr ⟨i, List.mem_cons_self i rest, h1⟩
      · exact Or.inr ⟨j, List.mem_cons_of_mem i hj, hpj⟩
    · intro hacc
      exact hnd (dictInsert_keys_nodup i.key (shapeData (f i)) acc hacc)

/-! ### Claim theorems: `get_data` shaping (C5) and key overwrite (C6) -/

/-- Claim C5: when every indicator of the collection has a payload, `get_data`
returns a mapping from indicator key to the `[T,2]` array of the payload's
column 0 (the global step) and column 5, with the numeric content of those
columns unchanged; every indicator's key is present in the mapping, and
column 5 is the fixed summary column at basis point 50.00 (the fifth basis
point, `basisPoints[5-1]`). -/
theorem get_data_shapes_step_and_median (cache : Cache SeriesPayload)
    (f : Indicator → SeriesPayload) (inds : List Indicator)
    (h : ∀ i ∈ inds, cache i = some (f i)) :
    ∃ m, get_data cache inds = some m ∧
      (∀ p ∈ m, ∃ i ∈ inds, p.1 = i.key ∧
        p.2 = (f i).map fun r => (r 0, r 5)) ∧
      (∀ i ∈ inds, ∃ v, dictLookup i.key m = some v) ∧
      basisPoints[4]? = some 50 := by
  obtain ⟨m, hm, hlook, hmem, -⟩ := getDataLoop_spec cache f inds [] h
  refine ⟨m, hm, ?_, ?_, by decide⟩
  · intro p hp
    rcases hmem p hp with hin | ⟨i, hi, rfl⟩
    · exact absurd hin (List.not_mem_nil p)
    · exact ⟨i, hi, rfl, rfl⟩
  · intro i hi
    obtain ⟨j, hj⟩ := lastWithKey_of_mem inds i hi
    have hq := hlook i.key
    rw [hj] at hq
    exact ⟨shapeData (f j), hq⟩

/-- Witness for C5 at a one-indicator collection with a concrete payload. -/
theorem get_data_shapes_witness :
    ∃ m, get_data sampleCache [⟨"run-A", "train_loss"⟩] = some m ∧
      (∀ p ∈ m, ∃ i ∈ ([⟨"run-A", "train_loss"⟩] : List Indicator),
        p.1 = i.key ∧ p.2 = (samplePayload i).map fun r => (r 0, r 5)) ∧
      (∀ i ∈ ([⟨"run-A", "train_loss"⟩] : List Indicator),
        ∃ v, dictLookup i.key m = some v) ∧
      basisPoints[4]? = some 50 :=
  get_data_shapes_step_and_median sampleCache samplePayload
    [⟨"run-A", "train_loss"⟩] (fun _ _ => rfl)

/-- Claim C6: with every payload present, `get_data` keys its dict by display
key alone, so duplicate keys are silently overwritten: the result has no
duplicate keys, and the entry for any key equals the shaped data of the last
indicator in collection order carrying that key. -/
theorem get_data_duplicate_keys_overwrite (cache : Cache SeriesPayload)
    (f : Indicator → SeriesPayload) (inds : List Indicator)
    (h : ∀ i ∈ inds, cache i = some (f i)) :
    ∃ m, get_data cache inds = some m ∧ (m.map Prod.fst).Nodup ∧
      ∀ q, dictLookup q m =
        (lastWithKey q inds).map fun j => shapeData (f j) := by
  obtain ⟨m, hm, hlook, -, hnd⟩ := getDataLoop_spec cache f inds [] h
  refine ⟨m, hm, hnd (by simp), ?_⟩
  intro q
  rw [hlook q]
  cases hl : lastWithKey q inds <;> simp [dictLookup]

/-- Witness for C6: two runs logging the same key `train_loss`. -/
theorem get_data_duplicate_keys_witness :
    ∃ m, get_data sampleCacheTwo
        [⟨"run-A", "train_loss"⟩, ⟨"run-B", "train_loss"⟩] = some m ∧
      (m.map Prod.fst).Nodup ∧
      ∀ q, dictLookup q m =
        (lastWithKey q [⟨"run-A", "train_loss"⟩, ⟨"run-B", "train_loss"⟩]).map
          fun j => shapeData (samplePayloadTwo j) :=
  get_data_duplicate_keys_overwrite sampleCacheTwo samplePayloadTwo
    [⟨"run-A", "train_loss"⟩, ⟨"run-B", "train_loss"⟩] (fun _ _ => rfl)

/-! ### Claim theorems: runs fold (C8), collection algebra (C9) -/

theorem runs_foldl_some (env : String → IndicatorCollection) :
    ∀ (us : List String) (c : IndicatorCollection),
      us.foldl (fun acc r => some (addNoneLeft acc (env r))) (some c) =
        some (us.foldl (fun acc r => acc.add (env r)) c) := by
  intro us
  induction us with
  | nil => intro c; rfl
  | cons u rest ih =>
    intro c
    simpa [addNoneLeft] using ih (c.add (env u))

/-- Claim C8: `runs` folds collection addition over the runs' indicator
collections in argument order starting from the `None` accumulator, and
addition absorbs the sentinel (`None + C` yields `C`'s elements) so the first
iteration needs no special branch: on a nonempty argument list the fold
equals plain collection addition seeded with the first run's collection. -/
theorem runs_folds_addition_from_none (env : String → IndicatorCollection) :
    (∀ c : IndicatorCollection, addNoneLeft none c = c) ∧
    runs env [] = none ∧
    ∀ (u : String) (us : List String),
      runs env (u :: us) =
        some (us.foldl (fun acc r => acc.add (env r)) (env u)) := by
  refine ⟨fun c => rfl, rfl, fun u us => ?_⟩
  simp only [runs, List.foldl_cons]
  exact runs_foldl_some env us (env u)

/-- Claim C9: collection addition keeps the left operand's elements (in
order) followed by the right operand's elements not already present; hence on
disjoint collections lengths add and the order is left-then-right, and
`A + A` has the same length as `A`. -/
theorem collection_add_union_lengths (A B : IndicatorCollection) :
    (A.add B).indicators =
      A.indicators ++ B.indicators.filter (fun i => i ∉ A.indicators) ∧
    ((∀ i ∈ B.indicators, i ∉ A.indicators) →
      (A.add B).indicators = A.indicators ++ B.indicators ∧
      (A.add B).indicators.length =
        A.indicators.length + B.indicators.length) ∧
    (A.add A).indicators.length = A.indicators.length := by
  refine ⟨rfl, ?_, ?_⟩
  · intro hdisj
    have hfil : B.indicators.filter (fun i => i ∉ A.indicators) =
        B.indicators :=
      List.filter_eq_self.mpr fun i hi => decide_eq_true (hdisj i hi)
    constructor
    · show A.indicators ++ _ = _
      rw [hfil]
    · show (A.indicators ++ _).length = _
      rw [hfil, List.length_append]
  · have hfil : A.indicators.filter (fun i => i ∉ A.indicators) = [] := by
      rw [List.filter_eq_nil_iff]
      intro i hi
      simp [hi]
    show (A.indicators ++ _).length = _
    rw [hfil, List.append_nil]

/-- Witness for C9: two disjoint singleton collections, from two runs logging
the same key, merge to a 2-element collection. -/
theorem collection_add_union_lengths_witness :
    ((⟨[⟨"run-A", "train_loss"⟩], List.nodup_singleton _⟩ :
        IndicatorCollection).add
      ⟨[⟨"run-B", "train_loss"⟩], List.nodup_singleton _⟩).indicators.length
      = 2 := by
  have h := (collection_add_union_lengths
      ⟨[⟨"run-A", "train_loss"⟩], List.nodup_singleton _⟩
      ⟨[⟨"run-B", "train_loss"⟩], List.nodup_singleton _⟩).2.1 (by decide)
  rw [h.2]
  rfl

/-! ### Claim theorem: run cache (C10) -/

theorem get_run_preserves_inv (store : String → Run) (s : RunCacheState)
    (uuid : String) (h : cacheInv s) : cacheInv (get_run store s uuid).2 := by
  cases hl : dictLookup uuid s.cached with
  | some r => simpa [get_run, hl] using h
  | none =>
    intro u
    simp only [get_run, hl]
    by_cases hu : u = uuid
    · subst hu
      have h0 : s.fetchCount u ≤ 0 := by simpa [hl] using h u
      simp [dictLookup, h0]
    · have hlu : dictLookup u ((uuid, store uuid) :: s.cached) =
          dictLookup u s.cached := by
        simp [dictLookup, Ne.symm hu]
      simpa [hu, hlu] using h u

theorem runCalls_inv (store : String → Run) :
    ∀ (calls : List String) (s : RunCacheState),
      cacheInv s → cacheInv (runCalls store s calls) := by
  intro calls
  induction calls with
  | nil => intro s h; exact h
  | cons u us ih =>
    intro s h
    exact ih _ (get_run_preserves_inv store s u h)

/-- Claim C10: a second `get_run` with the same identifier returns the very
Run the first call cached and leaves the cache state unchanged, and over any
sequence of calls from a fresh process state the backing-store fetch for any
identifier happens at most once. -/
theorem get_run_cached_identity_and_single_fetch (store : String → Run)
    (s : RunCacheState) (uuid : String) :
    (get_run store (get_run store s uuid).2 uuid).1 =
      (get_run store s uuid).1 ∧
    (get_run store (get_run store s uuid).2 uuid).2 =
      (get_run store s uuid).2 ∧
    ∀ (calls : List String) (u : String),
      (runCalls store RunCacheState.init calls).fetchCount u ≤ 1 := by
  refine ⟨?_, ?_, ?_⟩
  · cases hl : dictLookup uuid s.cached with
    | some r => simp [get_run, hl]
    | none => simp [get_run, hl, dictLookup]
  · cases hl : dictLookup uuid s.cached with
    | some r => simp [get_run, hl]
    | none => simp [get_run, hl, dictLookup]
  · intro calls u
    have hinit : cacheInv RunCacheState.init := by
      intro u
      simp [RunCacheState.init]
    have hinv := runCalls_inv store calls RunCacheState.init hinit u
    by_cases hc :
        (dictLookup u (runCalls store RunCacheState.init calls).cached).isSome
    · simpa [hc] using hinv
    · have : (runCalls store RunCacheState.init calls).fetchCount u ≤ 0 := by
        simpa [hc] using hinv
      omega

end Labml
